import Mathlib

/-!
Verification development for the `llmi` repository (an interactive terminal
client streaming chat-completion replies).

The definitions below are a shallow embedding of the Rust sources:

* `src/llm.rs`      — data model (`LLMResponse`, `Choice`, `Message`,
  `extract_message`) and `ChatGPT::request` (the streaming loop);
* `src/chatgpt.rs`  — `LLMService::request for ChatGPT` (request body with
  history and `max_tokens`; its streaming loop is the same as in `llm.rs`);
* `src/event.rs`    — `Event`, `EventManager` (bus producer and `next`);
* `src/app.rs`      — `App::process_prompt` (shared `Arc<Mutex<ChatGPT>>`).

Rust panics (a failed `unwrap`, `assert!` failure, index out of bounds) are
modelled by `none` / a `true` "panicked" flag; fallible steps return `Option`.
-/

set_option maxRecDepth 100000

namespace Llmi

/-- The `Message` struct of `src/llm.rs` (lines 66-70): both fields are
`Option<String>`. -/
structure Message where
  role : Option String
  content : Option String
deriving DecidableEq, Repr

/-- Raw JSON number literal, kept as its lexed parts.  The Rust side stores
`f64` for the `*_time` fields of `Usage`; no claim inspects those values, so
the number is kept symbolically instead of as a floating-point value. -/
structure NumLit where
  neg : Bool
  intDigits : List Char
  fracDigits : List Char
  expNeg : Bool
  expDigits : List Char
deriving DecidableEq, Repr

/-- The `Usage` struct of `src/llm.rs` (lines 47-55).  `u64` token counts are
`Nat` (deserialization enforces the `u64` range); `f64` times are kept as the
raw number literal. -/
structure Usage where
  prompt_tokens : Nat
  prompt_time : NumLit
  completion_tokens : Nat
  completion_time : NumLit
  total_tokens : Nat
  total_time : NumLit
deriving DecidableEq, Repr

/-- The `Choice` struct of `src/llm.rs` (lines 57-64). -/
structure Choice where
  index : Nat
  message : Option Message
  delta : Option Message
  logprobs : Option Unit
  finish_reason : Option String
deriving DecidableEq, Repr

/-- The `LLMResponse` struct of `src/llm.rs` (lines 37-45). -/
structure LLMResponse where
  id : String
  object : String
  created : Nat
  model : String
  choices : List Choice
  usage : Option Usage
deriving DecidableEq, Repr

/-- `LLMResponse::extract_message` (`src/llm.rs` lines 77-84).  The Rust body
indexes `choices[0]` (panic when `choices` is empty, modelled `none`) and
`unwrap`s `delta` when `message` is absent (panic when both are absent,
modelled `none`). -/
def LLMResponse.extract_message (r : LLMResponse) : Option Message :=
  match r.choices with
  | [] => none
  | c :: _ =>
    match c.message with
    | some m => some m
    | none => c.delta

/-- `Message::user` (`src/llm.rs` lines 94-96). -/
def Message.user (content : String) : Message :=
  ⟨some "user", some content⟩

/-- `Message::assistant` (`src/llm.rs` lines 98-100). -/
def Message.assistant (content : String) : Message :=
  ⟨some "assistant", some content⟩

/-! ### JSON values and the `serde_json::from_str` model

The decoder deserializes each captured payload with
`serde_json::from_str::<LLMResponse>`.  The parser below follows the JSON
grammar accepted by `serde_json` (strict numbers, string escapes, object and
array syntax, ASCII whitespace between tokens, nothing after the top-level
value); the struct deserialization follows the derived serde impls (unknown
fields ignored, duplicate known fields rejected, missing `Option` fields and
explicit `null` are `none`, missing required fields rejected). -/

/-- The opening brace character, written via its code point. -/
def lbraceChar : Char := Char.ofNat 123

/-- The closing brace character, written via its code point. -/
def rbraceChar : Char := Char.ofNat 125

/-- The double-quote character. -/
def quoteChar : Char := Char.ofNat 34

/-- The backslash character. -/
def backslashChar : Char := Char.ofNat 92

inductive Json where
  | null
  | jbool (b : Bool)
  | num (n : NumLit)
  | str (s : List Char)
  | arr (elems : List Json)
  | obj (fields : List (List Char × Json))

/-- JSON inter-token whitespace. -/
def jsonWs (c : Char) : Bool :=
  c = ' ' || c = '\t' || c = '\n' || c = '\r'

def skipWs (s : List Char) : List Char :=
  s.dropWhile jsonWs

def hexVal (c : Char) : Option Nat :=
  if c.isDigit then some (c.toNat - 48)
  else if 'a' ≤ c && c ≤ 'f' then some (c.toNat - 87)
  else if 'A' ≤ c && c ≤ 'F' then some (c.toNat - 55)
  else none

/-- Single-character string escapes accepted by serde_json. -/
def escChar (c : Char) : Option Char :=
  if c = quoteChar then some quoteChar
  else if c = backslashChar then some backslashChar
  else if c = '/' then some '/'
  else if c = 'b' then some (Char.ofNat 8)
  else if c = 'f' then some (Char.ofNat 12)
  else if c = 'n' then some '\n'
  else if c = 'r' then some '\r'
  else if c = 't' then some '\t'
  else none

/-- Body of a string literal after the opening quote: returns the decoded
characters and the input after the closing quote.  Raw control characters
are rejected; `\u` escapes of surrogate code units are not modelled (no
input considered contains them). -/
def parseStringBody : Nat → List Char → Option (List Char × List Char)
  | 0, _ => none
  | _ + 1, [] => none
  | fuel + 1, c :: rest =>
    if c = quoteChar then some ([], rest)
    else if c = backslashChar then
      match rest with
      | [] => none
      | e :: rest2 =>
        if e = 'u' then
          match rest2 with
          | h1 :: h2 :: h3 :: h4 :: rest3 =>
            match hexVal h1, hexVal h2, hexVal h3, hexVal h4 with
            | some a, some b, some c3, some d =>
              let n := ((a * 16 + b) * 16 + c3) * 16 + d
              if n < 55296 ∨ 57343 < n then
                (parseStringBody fuel rest3).map (fun pr => (Char.ofNat n :: pr.1, pr.2))
              else none
            | _, _, _, _ => none
          | _ => none
        else
          match escChar e with
          | some ec => (parseStringBody fuel rest2).map (fun pr => (ec :: pr.1, pr.2))
          | none => none
    else if c.toNat < 32 then none
    else (parseStringBody fuel rest).map (fun pr => (c :: pr.1, pr.2))

/-- A nonempty digit run and the rest of the input. -/
def parseDigits (s : List Char) : Option (List Char × List Char) :=
  let ds := s.takeWhile Char.isDigit
  if ds = [] then none else some (ds, s.drop ds.length)

/-- Optional fraction part. -/
def parseFrac : List Char → Option (List Char × List Char)
  | '.' :: rest => parseDigits rest
  | s => some ([], s)

/-- Optional exponent part: sign flag and digits (empty digits = absent). -/
def parseExp : List Char → Option (Bool × List Char × List Char)
  | [] => some (false, [], [])
  | c :: rest =>
    if c = 'e' ∨ c = 'E' then
      match rest with
      | '+' :: rest2 => (parseDigits rest2).map (fun pr => (false, pr.1, pr.2))
      | '-' :: rest2 => (parseDigits rest2).map (fun pr => (true, pr.1, pr.2))
      | _ => (parseDigits rest).map (fun pr => (false, pr.1, pr.2))
    else some (false, [], c :: rest)

/-- A JSON number literal per the strict grammar serde_json uses (no lone
minus, no leading zero, no empty fraction or exponent digits). -/
def parseNumLit (s : List Char) : Option (NumLit × List Char) :=
  let sgn := match s with
    | '-' :: rest => (true, rest)
    | _ => (false, s)
  match parseDigits sgn.2 with
  | none => none
  | some (intPart, s2) =>
    if 1 < intPart.length ∧ intPart.headI = '0' then none
    else
      match parseFrac s2 with
      | none => none
      | some (fracPart, s3) =>
        match parseExp s3 with
        | none => none
        | some (expNeg, expDigits, s4) =>
          some (⟨sgn.1, intPart, fracPart, expNeg, expDigits⟩, s4)

mutual

/-- One JSON value (with leading whitespace) and the remaining input. -/
def parseValue : Nat → List Char → Option (Json × List Char)
  | 0, _ => none
  | fuel + 1, s =>
    match skipWs s with
    | [] => none
    | c :: rest =>
      if c = 'n' then
        match rest with
        | 'u' :: 'l' :: 'l' :: rest2 => some (Json.null, rest2)
        | _ => none
      else if c = 't' then
        match rest with
        | 'r' :: 'u' :: 'e' :: rest2 => some (Json.jbool true, rest2)
        | _ => none
      else if c = 'f' then
        match rest with
        | 'a' :: 'l' :: 's' :: 'e' :: rest2 => some (Json.jbool false, rest2)
        | _ => none
      else if c = quoteChar then
        (parseStringBody (fuel + 1) rest).map (fun pr => (Json.str pr.1, pr.2))
      else if c = '-' ∨ c.isDigit then
        (parseNumLit (c :: rest)).map (fun pr => (Json.num pr.1, pr.2))
      else if c = '[' then
        match skipWs rest with
        | ']' :: rest2 => some (Json.arr [], rest2)
        | s2 =>
          match parseValue fuel s2 with
          | none => none
          | some (v, rest2) =>
            match parseArrTail fuel rest2 with
            | none => none
            | some (vs, rest3) => some (Json.arr (v :: vs), rest3)
      else if c = lbraceChar then
        match skipWs rest with
        | c2 :: rest2 =>
          if c2 = rbraceChar then some (Json.obj [], rest2)
          else
            match parseMember fuel (c2 :: rest2) with
            | none => none
            | some (kv, rest3) =>
              match parseObjTail fuel rest3 with
              | none => none
              | some (kvs, rest4) => some (Json.obj (kv :: kvs), rest4)
        | [] => none
      else none

/-- Array elements after the first one: `(ws , value)* ws ]`. -/
def parseArrTail : Nat → List Char → Option (List Json × List Char)
  | 0, _ => none
  | fuel + 1, s =>
    match skipWs s with
    | ']' :: rest => some ([], rest)
    | ',' :: rest =>
      match parseValue fuel rest with
      | none => none
      | some (v, rest2) =>
        match parseArrTail fuel rest2 with
        | none => none
        | some (vs, rest3) => some (v :: vs, rest3)
    | _ => none

/-- One `"key" : value` object member. -/
def parseMember : Nat → List Char → Option ((List Char × Json) × List Char)
  | 0, _ => none
  | fuel + 1, s =>
    match skipWs s with
    | [] => none
    | c :: rest =>
      if c = quoteChar then
        match parseStringBody (fuel + 1) rest with
        | none => none
        | some (key, rest2) =>
          match skipWs rest2 with
          | ':' :: rest3 =>
            match parseValue fuel rest3 with
            | none => none
            | some (v, rest4) => some ((key, v), rest4)
          | _ => none
      else none

/-- Object members after the first one. -/
def parseObjTail : Nat → List Char → Option (List (List Char × Json) × List Char)
  | 0, _ => none
  | fuel + 1, s =>
    match skipWs s with
    | [] => none
    | c :: rest =>
      if c = rbraceChar then some ([], rest)
      else if c = ',' then
        match parseMember fuel rest with
        | none => none
        | some (kv, rest2) =>
          match parseObjTail fuel rest2 with
          | none => none
          | some (kvs, rest3) => some (kv :: kvs, rest3)
      else none

end

/-- A whole JSON document: one value, then only trailing whitespace
(`serde_json::from_str` rejects trailing content). -/
def parseJsonTop (s : List Char) : Option Json :=
  match parseValue (2 * s.length + 8) s with
  | some (j, rest) => if skipWs rest = [] then some j else none
  | none => none

/-! ### Struct deserialization (derived serde impls) -/

inductive FieldLookup where
  | missing
  | dup
  | found (j : Json)

/-- Occurrences of a known field in an object: a duplicate known field is a
serde error; unknown fields are ignored. -/
def lookupField (fs : List (List Char × Json)) (key : List Char) : FieldLookup :=
  match fs.filter (fun f => decide (f.1 = key)) with
  | [] => FieldLookup.missing
  | [f] => FieldLookup.found f.2
  | _ => FieldLookup.dup

def strFromJson : Json → Option String
  | Json.str s => some (String.mk s)
  | _ => none

def reqString (fl : FieldLookup) : Option String :=
  match fl with
  | FieldLookup.found j => strFromJson j
  | _ => none

def digitsToNat (ds : List Char) : Nat :=
  ds.foldl (fun acc c => acc * 10 + (c.toNat - 48)) 0

/-- A `u64` field accepts an unsigned integer literal within the `u64`
range; fractions, exponents, signs and other JSON types are rejected. -/
def u64FromNum (n : NumLit) : Option Nat :=
  if n.neg = false ∧ n.fracDigits = [] ∧ n.expDigits = [] ∧
      digitsToNat n.intDigits < 2 ^ 64
  then some (digitsToNat n.intDigits) else none

def reqU64 (fl : FieldLookup) : Option Nat :=
  match fl with
  | FieldLookup.found (Json.num n) => u64FromNum n
  | _ => none

/-- An `f64` field accepts any JSON number (kept as its literal). -/
def reqNum (fl : FieldLookup) : Option NumLit :=
  match fl with
  | FieldLookup.found (Json.num n) => some n
  | _ => none

/-- serde `Option<T>`: a missing field or an explicit `null` is `none`; any
other value must deserialize as `T`; a duplicate field is an error. -/
def optField (parse : Json → Option α) (fl : FieldLookup) : Option (Option α) :=
  match fl with
  | FieldLookup.missing => some none
  | FieldLookup.dup => none
  | FieldLookup.found Json.null => some none
  | FieldLookup.found j => (parse j).map some

/-- serde `()` deserializes from `null` only, which `optField` already
consumes, so any remaining value is an error. -/
def unitFromJson : Json → Option Unit :=
  fun _ => none

def messageFromJson : Json → Option Message
  | Json.obj fs => do
    let role ← optField strFromJson (lookupField fs "role".data)
    let content ← optField strFromJson (lookupField fs "content".data)
    pure ⟨role, content⟩
  | _ => none

def choiceFromJson : Json → Option Choice
  | Json.obj fs => do
    let index ← reqU64 (lookupField fs "index".data)
    let message ← optField messageFromJson (lookupField fs "message".data)
    let delta ← optField messageFromJson (lookupField fs "delta".data)
    let logprobs ← optField unitFromJson (lookupField fs "logprobs".data)
    let finish_reason ← optField strFromJson (lookupField fs "finish_reason".data)
    pure ⟨index, message, delta, logprobs, finish_reason⟩
  | _ => none

def usageFromJson : Json → Option Usage
  | Json.obj fs => do
    let pt ← reqU64 (lookupField fs "prompt_tokens".data)
    let ptime ← reqNum (lookupField fs "prompt_time".data)
    let ct ← reqU64 (lookupField fs "completion_tokens".data)
    let ctime ← reqNum (lookupField fs "completion_time".data)
    let tt ← reqU64 (lookupField fs "total_tokens".data)
    let ttime ← reqNum (lookupField fs "total_time".data)
    pure ⟨pt, ptime, ct, ctime, tt, ttime⟩
  | _ => none

def llmResponseFromJson : Json → Option LLMResponse
  | Json.obj fs => do
    let id ← reqString (lookupField fs "id".data)
    let object ← reqString (lookupField fs "object".data)
    let created ← reqU64 (lookupField fs "created".data)
    let model ← reqString (lookupField fs "model".data)
    let choices ←
      match lookupField fs "choices".data with
      | FieldLookup.found (Json.arr xs) => xs.mapM choiceFromJson
      | _ => none
    let usage ← optField usageFromJson (lookupField fs "usage".data)
    pure ⟨id, object, created, model, choices, usage⟩
  | _ => none

/-- `serde_json::from_str::<LLMResponse>` on one captured payload. -/
def parseLLMResponse (p : List Char) : Option LLMResponse :=
  (parseJsonTop p).bind llmResponseFromJson

/-! ### Bus events and the streaming decoder

`ChatGPT::request` (`src/llm.rs` lines 159-218) and
`LLMService::request for ChatGPT` (`src/chatgpt.rs` lines 24-92) share the
same streaming loop: per received chunk, every capture of the regex
`data:\s(.*)` is examined; the sentinel payload `[DONE]` sends
`LLMEventEnd`; a deserializable payload must pass
`assert!(data.choices.len() > 0)` and then sends
`LLMEventDelta(data.extract_message())`; a payload that fails to
deserialize is skipped.  Nothing is carried over from one chunk to the
next, and nothing is sent when the chunk loop ends. -/

/-- The `Event` enum of `src/event.rs` (lines 11-19).  The raw crossterm
event payload is abstracted as an opaque numeric token. -/
inductive Event where
  | TermEvent (raw : Nat)
  | LLMEventStart
  | LLMEventDelta (m : Message)
  | LLMEventEnd
  | TickEvent
  | Notification (msg : String)
deriving DecidableEq, Repr

/-- Rust regex `\s` on the ASCII range (the regex crate uses Unicode
whitespace; every input considered is ASCII). -/
def rustWs (c : Char) : Bool :=
  c = ' ' || c = '\t' || c = '\n' || c = Char.ofNat 11 || c = Char.ofNat 12 || c = '\r'

/-- Fuel-indexed scan for the captures of `data:\s(.*)`; every step either
consumes at least one character or stops, so `length + 1` fuel always
suffices. -/
def findCapturesF : Nat → List Char → List (List Char)
  | 0, _ => []
  | fuel + 1, s =>
    match s with
    | 'd' :: 'a' :: 't' :: 'a' :: ':' :: w :: rest =>
      if rustWs w then
        let payload := rest.takeWhile (fun ch => ch != '\n')
        payload :: findCapturesF fuel (rest.drop payload.length)
      else
        findCapturesF fuel ('a' :: 't' :: 'a' :: ':' :: w :: rest)
    | _ :: rest => findCapturesF fuel rest
    | [] => []

/-- The successive non-overlapping captures of `data:\s(.*)` on one chunk
(`Regex::captures_iter`): at each position where `data:` is followed by one
whitespace character, the capture is the maximal run of non-newline
characters after it, and the scan resumes after the capture. -/
def findCaptures (s : List Char) : List (List Char) :=
  findCapturesF (s.length + 1) s

/-- Handling of one captured payload inside the chunk loop; `none` models a
panic (`assert!` failure on zero choices, or the `unwrap` inside
`extract_message`). -/
def processPayload (p : List Char) : Option (List Event) :=
  if p = "[DONE]".data then some [Event.LLMEventEnd]
  else
    match parseLLMResponse p with
    | some r =>
      if 0 < r.choices.length then
        match r.extract_message with
        | some m => some [Event.LLMEventDelta m]
        | none => none
      else none
    | none => some []

/-- Events sent for a list of captures, with a panicked flag; events sent
before a panic were already published and are kept. -/
def runPayloads : List (List Char) → List Event × Bool
  | [] => ([], false)
  | p :: ps =>
    match processPayload p with
    | none => ([], true)
    | some es =>
      let r := runPayloads ps
      (es ++ r.1, r.2)

/-- Events sent while scanning one chunk. -/
def runChunk (c : List Char) : List Event × Bool :=
  runPayloads (findCaptures c)

/-- Events sent over a sequence of body chunks; a panic stops the loop. -/
def decodeChunks : List (List Char) → List Event × Bool
  | [] => ([], false)
  | c :: cs =>
    let r := runChunk c
    if r.2 then (r.1, true)
    else
      let rest := decodeChunks cs
      (r.1 ++ rest.1, rest.2)

/-- Outcome of the transport interactions of one `request` invocation:
whether `send().await` succeeds, whether `error_for_status()` reports a
non-success status, the successfully read body chunks (valid UTF-8, given
as characters), and whether a `chunk().await` error occurs after the listed
chunks instead of the natural `None` end of the body. -/
structure Transport where
  sendOk : Bool
  statusErr : Bool
  chunks : List (List Char)
  readErr : Bool

/-- The events one `request` invocation publishes on the bus, paired with
whether the invocation panicked: `LLMEventStart` is sent before the network
call; a send error hits `unwrap` (panic); a non-success status sends
`LLMEventEnd` and returns `Ok`; otherwise the chunks are decoded and a read
error hits `unwrap` (panic) after the events already sent. -/
def requestRun (t : Transport) : List Event × Bool :=
  if t.sendOk = false then ([Event.LLMEventStart], true)
  else if t.statusErr = true then ([Event.LLMEventStart, Event.LLMEventEnd], false)
  else
    let r := decodeChunks t.chunks
    if r.2 then (Event.LLMEventStart :: r.1, true)
    else (Event.LLMEventStart :: r.1, t.readErr)

/-! ### The outgoing request body

`LLMService::request for ChatGPT` (`src/chatgpt.rs` lines 30-50) pushes the
prompt onto the history as a user message, converts every message to a
`role`/`content` pair (two `unwrap`s, panicking on an absent field), and
builds the `json!` body `(model, stream: true, max_tokens: 3000, messages)`.
`ChatGPT::request` in `src/llm.rs` takes no history argument; the claim
about history is about this impl. -/

/-- The hard-coded fallback model identifier (`src/chatgpt.rs` line 32,
`src/llm.rs` line 162). -/
def defaultModel : String := "mixtral-8x7b-32768"

/-- `env::var("LLM_MODEL").unwrap_or(..)`: the environment value when set,
else the fallback. -/
def modelOf (envModel : Option String) : String :=
  envModel.getD defaultModel

/-- One `messages` entry; `none` models the panic of the two `unwrap`s when
a history message lacks a role or content. -/
def msgToPair (m : Message) : Option (String × String) :=
  match m.role, m.content with
  | some r, some c => some (r, c)
  | _, _ => none

structure RequestBody where
  model : String
  stream : Bool
  max_tokens : Nat
  messages : List (String × String)
deriving DecidableEq, Repr

/-- The `messages` list built by `history.iter().map(..).collect()`; a
panic inside the closure (absent role or content) aborts the whole
construction. -/
def mapMsgs : List Message → Option (List (String × String))
  | [] => some []
  | m :: rest =>
    match msgToPair m, mapMsgs rest with
    | some pr, some prs => some (pr :: prs)
    | _, _ => none

/-- The request body of `LLMService::request for ChatGPT`. -/
def buildRequestBody (envModel : Option String) (prompt : String)
    (history : List Message) : Option RequestBody :=
  (mapMsgs (history ++ [Message.user prompt])).map
    (fun ms => ⟨modelOf envModel, true, 3000, ms⟩)

/-! ### The event bus (`src/event.rs`) -/

/-- One observation of the producer loop in `EventManager::new`
(`src/event.rs` lines 33-55): either the tick interval fires, or the
terminal stream yields `Some(Ok(event))`, `Some(Err(e))` or `None`. -/
inductive TermRead where
  | tick
  | okEv (raw : Nat)
  | errEv
  | endEv
deriving DecidableEq, Repr

/-- Events the background producer publishes for a sequence of
observations: ticks and terminal events are forwarded; a stream error or
stream end breaks the loop, and nothing further is published. -/
def producerRun : List TermRead → List Event
  | [] => []
  | TermRead.tick :: rest => Event.TickEvent :: producerRun rest
  | TermRead.okEv n :: rest => Event.TermEvent n :: producerRun rest
  | TermRead.errEv :: _ => []
  | TermRead.endEv :: _ => []

inductive RecvOutcome where
  | item (e : Event)
  | closed
  | pending
deriving DecidableEq, Repr

/-- `UnboundedReceiver::recv().await` on a tokio unbounded channel: yields
the queue head; yields `None` exactly when the queue is drained and every
sender has been dropped; otherwise leaves the caller suspended. -/
def chanRecv (queue : List Event) (senders : Nat) : RecvOutcome :=
  match queue with
  | e :: _ => RecvOutcome.item e
  | [] => if senders = 0 then RecvOutcome.closed else RecvOutcome.pending

inductive NextOutcome where
  | ok (e : Event)
  | errClosed
  | suspended
deriving DecidableEq, Repr

/-- `EventManager::next` (`src/event.rs` lines 68-75): the `None` of
`recv()` is mapped by `ok_or_else` to the distinct error value "Failed to
receive event from channel"; a pending `recv()` keeps the caller
suspended. -/
def nextOutcome (queue : List Event) (senders : Nat) : NextOutcome :=
  match chanRecv queue senders with
  | RecvOutcome.item e => NextOutcome.ok e
  | RecvOutcome.closed => NextOutcome.errClosed
  | RecvOutcome.pending => NextOutcome.suspended

/-- The `EventManager` struct (`src/event.rs` lines 21-26) keeps its own
`tx` sender field for its whole lifetime (`get_sender` clones it, nothing
drops it), so whenever `next()` can still be called at least this one
sender is alive even after the producer task has stopped. -/
def managerSenders : Nat := 1

/-! ### Serialization of concurrent invocations (`src/app.rs`)

`App::process_prompt` (`src/app.rs` lines 193-209) spawns, per prompt, the
closure `let mut llm = llm.lock().await; llm.request(..).await` over the
single shared `Arc<Mutex<ChatGPT>>` (`src/app.rs` lines 26 and 40).  The
model below gives each spawned closure a four-stage program — acquire the
tokio mutex, start the network call, finish the network call, drop the
guard — and lets an arbitrary scheduler interleave the tasks; `lock()`
suspends while another task owns the mutex. -/

structure MState where
  owner : Option Nat
  pcOf : Nat → Nat

def initState : MState := ⟨none, fun _ => 0⟩

def setPc (pc : Nat → Nat) (t v : Nat) : Nat → Nat :=
  fun u => if u = t then v else pc u

/-- One scheduler step offering task `t` a chance to run.  Stages: `0`
before `lock().await` (succeeds only when the mutex is free, otherwise the
task stays suspended); `1` holding the lock before the network call; `2`
inside the network call of `request`; `3` network call done, lock still
held; `4` guard dropped at the closure end. -/
def step (s : MState) (t : Nat) : MState :=
  match s.pcOf t with
  | 0 =>
    match s.owner with
    | none => ⟨some t, setPc s.pcOf t 1⟩
    | some _ => s
  | 1 => ⟨s.owner, setPc s.pcOf t 2⟩
  | 2 => ⟨s.owner, setPc s.pcOf t 3⟩
  | 3 => ⟨none, setPc s.pcOf t 4⟩
  | _ => s

/-- The state after running an arbitrary finite schedule from the initial
state. -/
def exec (sched : List Nat) : MState :=
  sched.foldl step initState

/-- Task `t` is currently inside its network call. -/
def inNet (s : MState) (t : Nat) : Bool :=
  s.pcOf t == 2

/-! ### Event counting helpers -/

def countStart (es : List Event) : Nat :=
  es.countP (fun e => decide (e = Event.LLMEventStart))

def countEnd (es : List Event) : Nat :=
  es.countP (fun e => decide (e = Event.LLMEventEnd))

/-- Number of terminator payloads captured in one chunk. -/
def countDoneChunk (c : List Char) : Nat :=
  (findCaptures c).countP (fun p => decide (p = "[DONE]".data))

/-- Number of terminator payloads captured across the chunks. -/
def countDone (cs : List (List Char)) : Nat :=
  (cs.map countDoneChunk).sum

/-! ### Concrete response-body lines used in the theorems -/

/-- A complete well-formed streaming record whose choice 0 carries the
delta text "Hello", as one line of the response body. -/
def goodLine : List Char :=
  ("data: \x7b\"id\":\"x\",\"object\":\"o\",\"created\":0,\"model\":\"m\",\"choices\":[\x7b\"index\":0,\"delta\":\x7b\"role\":\"assistant\",\"content\":\"Hello\"\x7d\x7d]\x7d\n").data

/-- The same record truncated inside the string literal `"Hello"`, as a
chunk ending mid-record. -/
def goodLineCut : List Char :=
  ("data: \x7b\"id\":\"x\",\"object\":\"o\",\"created\":0,\"model\":\"m\",\"choices\":[\x7b\"index\":0,\"delta\":\x7b\"role\":\"assistant\",\"content\":\"Hel").data

/-- The remainder of `goodLine` after the truncation point. -/
def goodLineRest : List Char :=
  ("lo\"\x7d\x7d]\x7d\n").data

/-- A record that deserializes with an empty `choices` array. -/
def zeroChoicesLine : List Char :=
  ("data: \x7b\"id\":\"\",\"object\":\"\",\"created\":0,\"model\":\"\",\"choices\":[]\x7d\n").data

/-- A line whose payload is not valid JSON. -/
def badLine : List Char :=
  ("data: \x7bnotjson\n").data

/-- The terminator line. -/
def doneLine : List Char :=
  ("data: [DONE]\n").data

/-! ### Helper lemmas -/

theorem countStart_append (a b : List Event) :
    countStart (a ++ b) = countStart a + countStart b := by
  simp [countStart, List.countP_append]

theorem countEnd_append (a b : List Event) :
    countEnd (a ++ b) = countEnd a + countEnd b := by
  simp [countEnd, List.countP_append]

theorem processPayload_counts (p : List Char) (es : List Event)
    (h : processPayload p = some es) :
    countStart es = 0 ∧ countEnd es = (if p = "[DONE]".data then 1 else 0) := by
  by_cases hp : p = "[DONE]".data
  · simp only [processPayload, if_pos hp] at h
    cases h
    exact ⟨rfl, by rw [if_pos hp]; rfl⟩
  · cases hr : parseLLMResponse p with
    | none =>
      simp only [processPayload, if_neg hp, hr] at h
      cases h
      exact ⟨rfl, by rw [if_neg hp]; rfl⟩
    | some r =>
      simp only [processPayload, if_neg hp, hr] at h
      by_cases hc : 0 < r.choices.length
      · rw [if_pos hc] at h
        cases he : r.extract_message with
        | none => simp only [he] at h; cases h
        | some m =>
          simp only [he, Option.some.injEq] at h
          cases h
          refine ⟨by simp [countStart], ?_⟩
          rw [if_neg hp]
          simp [countEnd]
      · rw [if_neg hc] at h
        cases h

theorem runPayloads_cons_none (p : List Char) (ps : List (List Char))
    (h : processPayload p = none) :
    runPayloads (p :: ps) = ([], true) := by
  rw [runPayloads, h]

theorem runPayloads_cons_some (p : List Char) (ps : List (List Char))
    (es : List Event) (h : processPayload p = some es) :
    runPayloads (p :: ps) = (es ++ (runPayloads ps).1, (runPayloads ps).2) := by
  rw [runPayloads, h]

theorem runPayloads_countStart (ps : List (List Char)) :
    countStart (runPayloads ps).1 = 0 := by
  induction ps with
  | nil => rfl
  | cons p ps ih =>
    cases hp : processPayload p with
    | none => rw [runPayloads_cons_none p ps hp]; rfl
    | some es =>
      rw [runPayloads_cons_some p ps es hp]
      show countStart (es ++ (runPayloads ps).1) = 0
      rw [countStart_append, (processPayload_counts p es hp).1, ih]

theorem runPayloads_countEnd (ps : List (List Char))
    (h : (runPayloads ps).2 = false) :
    countEnd (runPayloads ps).1
      = ps.countP (fun p => decide (p = "[DONE]".data)) := by
  induction ps with
  | nil => rfl
  | cons p ps ih =>
    cases hp : processPayload p with
    | none =>
      rw [runPayloads_cons_none p ps hp] at h
      cases h
    | some es =>
      rw [runPayloads_cons_some p ps es hp] at h ⊢
      have h2 : (runPayloads ps).2 = false := h
      show countEnd (es ++ (runPayloads ps).1) = _
      rw [countEnd_append, (processPayload_counts p es hp).2, ih h2,
        List.countP_cons]
      by_cases hd : p = "[DONE]".data
      all_goals simp [hd]
      all_goals omega


theorem decodeChunks_cons (c : List Char) (cs : List (List Char)) :
    decodeChunks (c :: cs)
      = if (runChunk c).2 then ((runChunk c).1, true)
        else ((runChunk c).1 ++ (decodeChunks cs).1, (decodeChunks cs).2) := by
  rw [decodeChunks]

theorem decodeChunks_countStart (cs : List (List Char)) :
    countStart (decodeChunks cs).1 = 0 := by
  induction cs with
  | nil => rfl
  | cons c cs ih =>
    rw [decodeChunks_cons]
    by_cases h2 : (runChunk c).2
    · rw [if_pos h2]
      exact runPayloads_countStart (findCaptures c)
    · rw [if_neg h2]
      show countStart ((runChunk c).1 ++ (decodeChunks cs).1) = 0
      rw [countStart_append, ih, runChunk, runPayloads_countStart]

theorem decodeChunks_countEnd (cs : List (List Char))
    (h : (decodeChunks cs).2 = false) :
    countEnd (decodeChunks cs).1 = countDone cs := by
  induction cs with
  | nil => rfl
  | cons c cs ih =>
    rw [decodeChunks_cons] at h ⊢
    by_cases h2 : (runChunk c).2
    · rw [if_pos h2] at h
      simp at h
    · rw [if_neg h2] at h ⊢
      have hr : (runChunk c).2 = false := by simpa using h2
      have h3 : (decodeChunks cs).2 = false := h
      show countEnd ((runChunk c).1 ++ (decodeChunks cs).1) = countDone (c :: cs)
      have hc : countEnd (runChunk c).1 = countDoneChunk c := by
        rw [runChunk]
        exact runPayloads_countEnd (findCaptures c) hr
      rw [countEnd_append, ih h3, hc]
      simp [countDone]

/-! ### Claims C1-C4 -/

/-- C1.  The streaming decoder is NOT chunk-boundary invariant: the code
keeps no cross-chunk buffer, so a valid record fed as one chunk yields its
delta fragment, while the same bytes split inside the string literal yield
nothing — the buffered tail the spec mandates is dropped.  (Code bug: the
spec requires the unterminated tail to be buffered and prepended to the
next chunk.) -/
theorem c1_split_record_lost :
    goodLineCut ++ goodLineRest = goodLine
    ∧ decodeChunks [goodLine]
        = ([Event.LLMEventDelta ⟨some "assistant", some "Hello"⟩], false)
    ∧ decodeChunks [goodLineCut, goodLineRest] = ([], false) := by
  refine ⟨by decide, by decide, by decide⟩

/-- C2.  A transport error during the header exchange (`send().await` is an
`Err`) or during a body-chunk read (`chunk().await` is an `Err`) hits an
`unwrap`: the invocation panics instead of returning normally, and no
`LLMEventEnd` is published.  (Code bug: the spec requires such errors to
surface as a graceful `StreamEnd`.) -/
theorem c2_transport_error_panics :
    requestRun ⟨false, false, [], false⟩ = ([Event.LLMEventStart], true)
    ∧ requestRun ⟨true, false, [], true⟩ = ([Event.LLMEventStart], true)
    ∧ Event.LLMEventEnd ∉ (requestRun ⟨false, false, [], false⟩).1
    ∧ Event.LLMEventEnd ∉ (requestRun ⟨true, false, [], true⟩).1 := by
  refine ⟨rfl, rfl, by decide, by decide⟩

/-- C3.  A line whose payload deserializes to a record with zero choices is
NOT skipped: `assert!(data.choices.len() > 0)` fails, i.e. the invocation
panics and the stream stops.  (Code bug: the spec requires zero choices to
be treated as a decode failure that is skipped.) -/
theorem c3_zero_choices_panics :
    decodeChunks [zeroChoicesLine] = ([], true)
    ∧ requestRun ⟨true, false, [zeroChoicesLine], false⟩
        = ([Event.LLMEventStart], true) := by
  refine ⟨by decide, by decide⟩

/-- C4 counterexample.  An invocation that reaches network success need not
publish exactly one `LLMEventEnd`: a body that ends naturally without a
terminator line publishes none, and a body carrying two terminator lines
publishes two. -/
theorem c4_framing_counterexample :
    requestRun ⟨true, false, [], false⟩ = ([Event.LLMEventStart], false)
    ∧ countEnd (requestRun ⟨true, false, [], false⟩).1 = 0
    ∧ (requestRun ⟨true, false, [doneLine ++ doneLine], false⟩).1
        = [Event.LLMEventStart, Event.LLMEventEnd, Event.LLMEventEnd] := by
  refine ⟨rfl, by decide, by decide⟩

/-- C4 (amended).  Every invocation that reaches network success publishes
`LLMEventStart` first and then exactly the decoder events in decode order;
the decoder events contain no further `LLMEventStart`, and when no panic
occurs they contain one `LLMEventEnd` per terminator line captured — none
for a natural end of the transport without a terminator. -/
theorem c4_framing_amended (t : Transport) (h1 : t.sendOk = true)
    (h2 : t.statusErr = false) :
    (requestRun t).1 = Event.LLMEventStart :: (decodeChunks t.chunks).1
    ∧ countStart (decodeChunks t.chunks).1 = 0
    ∧ ((decodeChunks t.chunks).2 = false →
        countEnd (decodeChunks t.chunks).1 = countDone t.chunks) := by
  refine ⟨?_, decodeChunks_countStart t.chunks, decodeChunks_countEnd t.chunks⟩
  unfold requestRun
  rw [h1, h2]
  by_cases hd : (decodeChunks t.chunks).2 <;> simp [hd]

/-- Witness for the amended C4 theorem at a concrete transport. -/
theorem c4_framing_amended_witness :
    (requestRun ⟨true, false, [doneLine], false⟩).1
        = Event.LLMEventStart :: (decodeChunks [doneLine]).1
    ∧ countStart (decodeChunks [doneLine]).1 = 0
    ∧ ((decodeChunks [doneLine]).2 = false →
        countEnd (decodeChunks [doneLine]).1 = countDone [doneLine]) :=
  c4_framing_amended ⟨true, false, [doneLine], false⟩ rfl rfl

/-! ### Claims C5-C7 -/

theorem mapMsgs_append_user (history : List Message)
    (ms : List (String × String)) (h : mapMsgs history = some ms)
    (prompt : String) :
    mapMsgs (history ++ [Message.user prompt])
      = some (ms ++ [("user", prompt)]) := by
  induction history generalizing ms with
  | nil =>
    cases h
    rfl
  | cons m rest ih =>
    cases hm : msgToPair m with
    | none =>
      cases hr : mapMsgs rest with
      | none => rw [mapMsgs, hm, hr] at h; cases h
      | some prs => rw [mapMsgs, hm, hr] at h; cases h
    | some pr =>
      cases hr : mapMsgs rest with
      | none => rw [mapMsgs, hm, hr] at h; cases h
      | some prs =>
        rw [mapMsgs, hm, hr] at h
        cases h
        rw [List.cons_append, mapMsgs, hm, ih prs hr]
        rfl

/-- C5.  The outgoing request body of `LLMService::request for ChatGPT` is
`(model, stream: true, max_tokens: 3000, messages)` where `messages` is the
given history (whenever it converts without a panic) with the prompt
appended as a final user turn, and the model falls back to the hard-coded
identifier when the environment variable is unset. -/
theorem c5_request_body (envModel : Option String) (prompt : String)
    (history : List Message) (ms : List (String × String))
    (h : mapMsgs history = some ms) :
    buildRequestBody envModel prompt history
      = some ⟨envModel.getD defaultModel, true, 3000, ms ++ [("user", prompt)]⟩
    ∧ modelOf none = defaultModel := by
  refine ⟨?_, rfl⟩
  unfold buildRequestBody
  rw [mapMsgs_append_user history ms h prompt]
  rfl

/-- Witness for C5 on a one-element history with the environment variable
unset. -/
theorem c5_request_body_witness :
    buildRequestBody none "hi" [Message.user "hey"]
      = some ⟨(none : Option String).getD defaultModel, true, 3000,
          [("user", "hey")] ++ [("user", "hi")]⟩
    ∧ modelOf none = defaultModel :=
  c5_request_body none "hi" [Message.user "hey"] [("user", "hey")] rfl

/-- C6.  A line whose payload fails to deserialize produces no event and
does not abort the scan; concretely, one chunk holding a well-formed
record, a malformed JSON line and the terminator decodes to exactly one
`LLMEventDelta` followed by one `LLMEventEnd`. -/
theorem c6_malformed_tolerance :
    (∀ p : List Char, p ≠ "[DONE]".data → parseLLMResponse p = none →
        processPayload p = some [])
    ∧ decodeChunks [goodLine ++ badLine ++ doneLine]
        = ([Event.LLMEventDelta ⟨some "assistant", some "Hello"⟩,
            Event.LLMEventEnd], false) := by
  constructor
  · intro p hne hparse
    simp only [processPayload, if_neg hne, hparse]
  · decide

/-- Witness for the universally quantified part of C6 at a malformed
payload. -/
theorem c6_malformed_tolerance_witness :
    processPayload ("\x7bnotjson".data) = some [] :=
  c6_malformed_tolerance.1 ("\x7bnotjson".data) (by decide) (by decide)

/-- C7.  When the remote returns a non-success status
(`error_for_status()` is an `Err`), the invocation publishes `LLMEventEnd`
immediately and returns `Ok`, and no `LLMEventDelta` is published. -/
theorem c7_error_status_stream_end (t : Transport) (h1 : t.sendOk = true)
    (h2 : t.statusErr = true) :
    requestRun t = ([Event.LLMEventStart, Event.LLMEventEnd], false)
    ∧ ∀ m, Event.LLMEventDelta m ∉ (requestRun t).1 := by
  have he : requestRun t = ([Event.LLMEventStart, Event.LLMEventEnd], false) := by
    unfold requestRun
    rw [h1, h2]
    simp
  refine ⟨he, ?_⟩
  intro m
  rw [he]
  simp

/-- Witness for C7 at a concrete transport with a non-success status. -/
theorem c7_error_status_stream_end_witness :
    requestRun ⟨true, true, [], false⟩
      = ([Event.LLMEventStart, Event.LLMEventEnd], false) :=
  (c7_error_status_stream_end ⟨true, true, [], false⟩ rfl rfl).1

/-! ### Claim C8: mutual exclusion on the shared client -/

/-- The lock invariant: any task between a successful `lock().await` and
the drop of its guard is the mutex owner. -/
def lockInv (s : MState) : Prop :=
  ∀ t, (s.pcOf t = 1 ∨ s.pcOf t = 2 ∨ s.pcOf t = 3) → s.owner = some t

theorem lockInv_init : lockInv initState := by
  intro t h
  simp [initState] at h

theorem lockInv_step (s : MState) (t : Nat) (h : lockInv s) :
    lockInv (step s t) := by
  intro u hu
  rcases hpc : s.pcOf t with _ | _ | _ | _ | n
  · cases how : s.owner with
    | none =>
      have hs : step s t = ⟨some t, setPc s.pcOf t 1⟩ := by
        unfold step
        rw [hpc, how]
      rw [hs] at hu ⊢
      dsimp only at hu ⊢
      by_cases hut : u = t
      · subst hut
        rfl
      · have hpu : setPc s.pcOf t 1 u = s.pcOf u := by simp [setPc, hut]
        rw [hpu] at hu
        have h1 := h u hu
        rw [how] at h1
        cases h1
    | some w =>
      have hs : step s t = s := by
        unfold step
        rw [hpc, how]
      rw [hs] at hu ⊢
      exact h u hu
  · have hs : step s t = ⟨s.owner, setPc s.pcOf t 2⟩ := by
      unfold step
      rw [hpc]
    rw [hs] at hu ⊢
    dsimp only at hu ⊢
    by_cases hut : u = t
    · subst hut
      exact h u (Or.inl hpc)
    · have hpu : setPc s.pcOf t 2 u = s.pcOf u := by simp [setPc, hut]
      rw [hpu] at hu
      exact h u hu
  · have hs : step s t = ⟨s.owner, setPc s.pcOf t 3⟩ := by
      unfold step
      rw [hpc]
    rw [hs] at hu ⊢
    dsimp only at hu ⊢
    by_cases hut : u = t
    · subst hut
      exact h u (Or.inr (Or.inl hpc))
    · have hpu : setPc s.pcOf t 3 u = s.pcOf u := by simp [setPc, hut]
      rw [hpu] at hu
      exact h u hu
  · have hs : step s t = ⟨none, setPc s.pcOf t 4⟩ := by
      unfold step
      rw [hpc]
    rw [hs] at hu ⊢
    dsimp only at hu ⊢
    by_cases hut : u = t
    · subst hut
      simp [setPc] at hu
    · have hpu : setPc s.pcOf t 4 u = s.pcOf u := by simp [setPc, hut]
      rw [hpu] at hu
      have h1 := h u hu
      have h2 := h t (Or.inr (Or.inr hpc))
      rw [h2] at h1
      exact ((hut (Option.some.inj h1).symm).elim)
  · have hs : step s t = s := by
      unfold step
      rw [hpc]
      rfl
    rw [hs] at hu ⊢
    exact h u hu

theorem lockInv_foldl (sched : List Nat) (s : MState) (h : lockInv s) :
    lockInv (sched.foldl step s) := by
  induction sched generalizing s with
  | nil => exact h
  | cons t rest ih =>
    rw [List.foldl_cons]
    exact ih (step s t) (lockInv_step s t h)

theorem lockInv_exec (sched : List Nat) : lockInv (exec sched) :=
  lockInv_foldl sched initState lockInv_init

/-- C8.  Under any schedule, two distinct invocations spawned by
`App::process_prompt` are never simultaneously inside their network calls:
the network call happens while holding the single shared tokio mutex, so
the active calls of concurrently submitted prompts never overlap. -/
theorem c8_mutual_exclusion (sched : List Nat) (t u : Nat) (hne : t ≠ u) :
    ¬(inNet (exec sched) t = true ∧ inNet (exec sched) u = true) := by
  rintro ⟨ht, hu⟩
  have ht2 : (exec sched).pcOf t = 2 := by simpa [inNet] using ht
  have hu2 : (exec sched).pcOf u = 2 := by simpa [inNet] using hu
  have h1 := lockInv_exec sched t (Or.inr (Or.inl ht2))
  have h2 := lockInv_exec sched u (Or.inr (Or.inl hu2))
  rw [h1] at h2
  exact hne (Option.some.inj h2)

/-- Witness for C8 on a concrete three-step schedule. -/
theorem c8_mutual_exclusion_witness :
    ¬(inNet (exec [0, 0, 1]) 0 = true ∧ inNet (exec [0, 0, 1]) 1 = true) :=
  c8_mutual_exclusion [0, 0, 1] 0 1 (by decide)

/-! ### Claim C9: producer stop and bus closure -/

/-- C9 counterexample.  After the input source errors the producer stops,
but the `EventManager` still holds its own sender, so the next `next()`
caller on a drained queue is left suspended — it does not receive the
distinct bus-closed error the claim promises. -/
theorem c9_next_counterexample :
    producerRun [TermRead.errEv] = []
    ∧ nextOutcome [] managerSenders = NextOutcome.suspended
    ∧ NextOutcome.suspended ≠ NextOutcome.errClosed := by
  refine ⟨rfl, rfl, by decide⟩

/-- C9 (amended).  The producer stops at the first input-source error
(everything after it is ignored); `next()` returns the distinct bus-closed
error exactly when the queue is drained and all senders are dropped; and
since the manager retains one sender, producer termination alone leaves a
`next()` caller on a drained queue suspended. -/
theorem c9_bus_closed_amended :
    (∀ pre post, producerRun (pre ++ TermRead.errEv :: post)
        = producerRun (pre ++ [TermRead.errEv]))
    ∧ (∀ (queue : List Event) (senders : Nat),
        nextOutcome queue senders = NextOutcome.errClosed
          ↔ queue = [] ∧ senders = 0)
    ∧ nextOutcome [] managerSenders = NextOutcome.suspended := by
  refine ⟨?_, ?_, rfl⟩
  · intro pre post
    induction pre with
    | nil => rfl
    | cons o rest ih =>
      cases o <;> simp [producerRun, ih]
  · intro queue senders
    cases queue with
    | nil =>
      cases senders with
      | zero => simp [nextOutcome, chanRecv]
      | succ n => simp [nextOutcome, chanRecv]
    | cons e rest => simp [nextOutcome, chanRecv]

/-! ### Claim C10: partiality of extract_message -/

/-- C10.  On a response whose choices list is nonempty, `extract_message`
panics (returns `none`) exactly when both the `message` and the `delta`
field of choice 0 are absent; when `message` is present it is returned,
and when only `delta` is present the delta is returned. -/
theorem c10_extract_message_domain (r : LLMResponse) (c : Choice)
    (cs : List Choice) (h : r.choices = c :: cs) :
    (c.message = none → c.delta = none → r.extract_message = none)
    ∧ (∀ m, c.message = some m → r.extract_message = some m)
    ∧ (∀ m, c.message = none → c.delta = some m →
        r.extract_message = some m) := by
  have hred : r.extract_message
      = (match c.message with
         | some m => some m
         | none => c.delta) := by
    unfold LLMResponse.extract_message
    rw [h]
  refine ⟨?_, ?_, ?_⟩
  · intro hm hd
    rw [hred, hm, hd]
  · intro m hm
    rw [hred, hm]
  · intro m hm hd
    rw [hred, hm, hd]

/-- Witness for C10: both fields absent gives a panic; a present delta is
returned. -/
theorem c10_extract_message_domain_witness :
    (LLMResponse.mk "" "" 0 "" [Choice.mk 0 none none none none]
        none).extract_message = none
    ∧ (LLMResponse.mk "" "" 0 ""
        [Choice.mk 0 none (some (Message.mk (some "assistant") (some "x")))
          none none] none).extract_message
        = some (Message.mk (some "assistant") (some "x")) :=
  ⟨(c10_extract_message_domain _ _ _ rfl).1 rfl rfl,
   (c10_extract_message_domain _ _ _ rfl).2.2 _ rfl rfl⟩

end Llmi
